import Mathlib

/-!
Shallow embedding of `release_handler.py` (shortcut-release-action).

The script is a linear pipeline: list commit subjects via a git subprocess,
extract Shortcut story ids with a regex, fetch story JSON over HTTP,
bucket stories by `story_type`, decide a semantic-version bump (or reuse an
existing tag at HEAD), and render markdown release notes.

External effects are modelled as explicit inputs:
* a git subprocess invocation becomes an `Option String` — `some stdout` for
  a zero exit status (captured standard output), `none` for a non-zero exit
  (the `subprocess.CalledProcessError` branch);
* the Shortcut HTTP API becomes an oracle `String → Option StoryJson` keyed
  by the numeric story id — `some body` for a 2xx JSON response (with the
  three fields the script reads, absent fields taken as `""` exactly as the
  script's `dict.get(_, '')` defaults do), `none` for a network error or
  non-2xx status (the `requests.exceptions.RequestException` branch).

Strings are Unicode code-point sequences (`List Char`), matching Python 3
`str`; case mappings are modelled on the ASCII range, which covers every
character the script's patterns (`sc-(\d+)`, `^v[0-9]+\.[0-9]+\.[0-9]+$`)
and fixed identifiers can produce.
-/

/-! ## Python string primitives used by the script -/

/-- Python `str.strip()` whitespace test, restricted to the ASCII range
(space, tab, newline, carriage return, vertical tab, form feed). -/
def isPySpace (c : Char) : Bool :=
  c.toNat == 32 || c.toNat == 9 || c.toNat == 10 ||
  c.toNat == 13 || c.toNat == 11 || c.toNat == 12

/-- Python `str.strip()`: drop leading and trailing whitespace. -/
def pyStrip (s : String) : String :=
  String.mk (((s.data.dropWhile isPySpace).reverse.dropWhile isPySpace).reverse)

/-- Python `str.split(sep)` for a single-character separator: the result is
never empty, and splitting the empty string yields `[[]]` (one empty
field), exactly as in Python. -/
def splitOnChar (sep : Char) : List Char → List (List Char)
  | [] => [[]]
  | c :: rest =>
    if c == sep then [] :: splitOnChar sep rest
    else
      match splitOnChar sep rest with
      | h :: t => (c :: h) :: t
      | [] => [[c]]

/-- Python `s.split('\n')`. -/
def pySplitLines (s : String) : List String :=
  (splitOnChar '\n' s.data).map String.mk

/-- Python `s.lstrip('v')`: remove every leading `'v'`. -/
def lstripV (s : String) : String :=
  String.mk (s.data.dropWhile (fun c => c == 'v'))

/-- Python `str.lower()` on the ASCII range (`Char.toLower` maps `A`–`Z`
to `a`–`z` and fixes everything else). -/
def lowerString (s : String) : String :=
  String.mk (s.data.map Char.toLower)

/-! ## Data model -/

/-- `semantic_version.Version` restricted to the plain
`major.minor.patch` form (the script never constructs or consumes
prerelease or build components: its inputs are `v<digits>.<digits>.<digits>`
tags and its sole output is `"v{major}.{minor}.{patch}"`). -/
structure Version where
  major : Nat
  minor : Nat
  patch : Nat
deriving DecidableEq, Repr

/-- `semantic_version.Version.next_minor()`: bump minor, reset patch. -/
def next_minor (v : Version) : Version :=
  { major := v.major, minor := v.minor + 1, patch := 0 }

/-- `semantic_version.Version.next_patch()`: bump patch only. -/
def next_patch (v : Version) : Version :=
  { major := v.major, minor := v.minor, patch := v.patch + 1 }

/-- One numeral of a strict semantic version: one or more digits with no
leading zero (`semantic_version` rejects `01`). -/
def parseNumeral (ds : List Char) : Option Nat :=
  if ds.isEmpty then none
  else if !ds.all Char.isDigit then none
  else if ds.length > 1 && ds.headD ' ' == '0' then none
  else some (ds.foldl (fun n c => n * 10 + (c.toNat - 48)) 0)

/-- `semantic_version.Version(s)` on plain versions: exactly three
dot-separated strict numerals, else a `ValueError` (`none`). -/
def parseVersion (s : String) : Option Version :=
  match (splitOnChar '.' s.data).map parseNumeral with
  | [some a, some b, some c] => some { major := a, minor := b, patch := c }
  | _ => none

/-- `str(version)` for a plain version: `"major.minor.patch"`. -/
def renderVersion (v : Version) : String :=
  toString v.major ++ "." ++ toString v.minor ++ "." ++ toString v.patch

/-- The three JSON fields of a Shortcut story the script reads
(`story_type`, `name`, `description`); a field absent from the response
body is the empty string, matching the script's `story.get(_, '')`. -/
structure StoryJson where
  story_type : String
  name : String
  description : String
deriving DecidableEq, Repr

/-- The record `{'id': …, 'name': …, 'description': …}` appended to a
category bucket by `categorize_stories`. -/
structure StoryEntry where
  id : String
  name : String
  description : String
deriving DecidableEq, Repr

/-- The `categories` dict: an association list from category name to its
bucket, in the dict's (insertion-ordered) key order. -/
def CategoryMap := List (String × List StoryEntry)
deriving DecidableEq

/-- The dict literal `{'feature': [], 'bug': [], 'chore': []}`. -/
def initCategories : CategoryMap :=
  [("feature", []), ("bug", []), ("chore", [])]

/-- A `CategoryMap` holding the given `feature`, `bug` and `chore`
buckets, in the fixed key order of the script's dict literal. -/
def mkCategories (f b c : List StoryEntry) : CategoryMap :=
  [("feature", f), ("bug", b), ("chore", c)]

/-- Python `categories[k]` (total with a default; every `CategoryMap`
the script builds carries all three keys). -/
def getCat (m : CategoryMap) (k : String) : List StoryEntry :=
  (List.lookup k m).getD []

/-- Python `k in categories` (dict key membership). -/
def hasKey (m : CategoryMap) (k : String) : Bool :=
  m.any (fun p => p.1 == k)

/-- Python `categories[k].append(e)` (the bucket of every pair whose key
is `k` grows by `e`; keys are unchanged). -/
def appendTo (m : CategoryMap) (k : String) (e : StoryEntry) : CategoryMap :=
  m.map (fun p => if p.1 == k then (p.1, p.2 ++ [e]) else p)

/-- All entries appearing in any bucket of the map. -/
def allEntries (m : CategoryMap) : List StoryEntry :=
  (m.map Prod.snd).flatten

/-! ## CommitFetcher — `ReleaseHandler.get_commits_between_releases` -/

/-- `get_commits_between_releases` (lines 39–57): runs
`git log base..head --format=%s`; on success returns
`result.stdout.strip().split('\n')` (so empty output yields `[""]`),
and on a non-zero exit logs the error and returns `[]`.
The subprocess outcome is the explicit input. -/
def get_commits_between_releases (gitLogResult : Option String) : List String :=
  match gitLogResult with
  | some stdout => pySplitLines (pyStrip stdout)
  | none => []

/-! ## StoryIdExtractor — `ReleaseHandler.extract_story_ids` -/

/-- One attempt of the pattern `sc-(\d+)` at the head of the (already
lower-cased) text: on a match, the formatted id `"SC-" ++ digits` and the
rest of the text after the match. The digit run is maximal, as for the
greedy `\d+`. -/
def matchAt (cs : List Char) : Option (String × List Char) :=
  match cs with
  | 's' :: 'c' :: '-' :: rest =>
    if (rest.takeWhile Char.isDigit).isEmpty then none
    else some ("SC-" ++ String.mk (rest.takeWhile Char.isDigit),
               rest.drop (rest.takeWhile Char.isDigit).length)
  | _ => none

/-- The `re.finditer` scan for `sc-(\d+)`: leftmost, non-overlapping
matches; after a match the scan resumes past it, after a failed attempt it
advances one position.  The fuel argument (instantiated with the text
length, which bounds the number of steps) makes the recursion structural. -/
def scanAux : Nat → List Char → List String
  | 0, _ => []
  | _ + 1, [] => []
  | fuel + 1, c :: rest =>
    match matchAt (c :: rest) with
    | some (id, rest2) => id :: scanAux fuel rest2
    | none => scanAux fuel rest

/-- All matches of `sc-(\d+)` in a text, formatted as `SC-<digits>`. -/
def scanIds (cs : List Char) : List String :=
  scanAux cs.length cs

/-- `extract_story_ids` (lines 59–66): for each commit message, scan
`message.lower()` with `sc-(\d+)` and collect `f"SC-{digits}"` for every
match; finally deduplicate with `list(set(…))` (modelled by `List.dedup`;
the claims about the result are order-independent, matching Python's
unspecified set order). -/
def extract_story_ids (commit_messages : List String) : List String :=
  (commit_messages.foldl
    (fun story_ids message => story_ids ++ scanIds (message.data.map Char.toLower))
    []).dedup

/-- The shape `SC-<digits>` with at least one digit — the language of
`^SC-\d+$` on ASCII. -/
def isSCId (s : String) : Bool :=
  match s.data with
  | 'S' :: 'C' :: '-' :: ds => !ds.isEmpty && ds.all Char.isDigit
  | _ => false

/-! ## StoryClient — `ReleaseHandler.get_story_details` -/

/-- The empty dict `{}` returned on a failed fetch, as seen through the
three `story.get(_, '')` reads. -/
def emptyStoryJson : StoryJson :=
  { story_type := "", name := "", description := "" }

/-- `story_id.lower().replace('sc-', '')` — remove every (non-overlapping,
left-to-right) occurrence of `sc-` from the lower-cased id. -/
def removeScDash : List Char → List Char
  | 's' :: 'c' :: '-' :: rest => removeScDash rest
  | c :: rest => c :: removeScDash rest
  | [] => []

/-- The numeric id used in the request URL. -/
def numericId (story_id : String) : String :=
  String.mk (removeScDash (story_id.data.map Char.toLower))

/-- `get_story_details` (lines 68–81): GET `/stories/<numeric-id>`;
a 2xx response yields its JSON body, any `RequestException` is logged and
yields `{}`. The HTTP outcome is the oracle `fetch`. -/
def get_story_details (fetch : String → Option StoryJson) (story_id : String) : StoryJson :=
  match fetch (numericId story_id) with
  | some story => story
  | none => emptyStoryJson

/-! ## Categorizer — `ReleaseHandler.categorize_stories` -/

/-- The body of the loop in `categorize_stories`: fetch the story, read
`story.get('story_type', '').lower()`, and append
`{'id': story_id, 'name': …, 'description': …}` to the matching bucket
when the type is a key of the dict; otherwise leave the dict unchanged. -/
def categorizeStep (fetch : String → Option StoryJson)
    (categories : CategoryMap) (story_id : String) : CategoryMap :=
  let story := get_story_details fetch story_id
  let story_type := lowerString story.story_type
  if hasKey categories story_type then
    appendTo categories story_type
      { id := story_id, name := story.name, description := story.description }
  else categories

/-- `categorize_stories` (lines 83–101): fold the loop body over the story
ids, starting from `{'feature': [], 'bug': [], 'chore': []}`. -/
def categorize_stories (fetch : String → Option StoryJson)
    (story_ids : List String) : CategoryMap :=
  story_ids.foldl (categorizeStep fetch) initCategories

/-! ## VersionResolver -/

/-- `determine_version_bump` (lines 103–109): `'minor'` if the feature
bucket is non-empty, else `'patch'` (the `elif categories['bug']` branch
and the final `return` both yield `'patch'`). -/
def determine_version_bump (categories : CategoryMap) : String :=
  if getCat categories "feature" ≠ [] then "minor"
  else if getCat categories "bug" ≠ [] then "patch"
  else "patch"

/-- `getattr(prev_version, f"next_{bump_type}")()` (line 210): dispatch on
the bump name; any other name would be an `AttributeError` (`none`). -/
def applyBump (prev_version : Version) (bump_type : String) : Option Version :=
  if bump_type == "minor" then some (next_minor prev_version)
  else if bump_type == "patch" then some (next_patch prev_version)
  else none

/-! ## NotesRenderer — `ReleaseHandler.generate_release_notes` -/

/-- The heading literal of line 121 (the source file stores the rocket
emoji double-encoded; these are its exact code points). -/
def featuresHeading : String := "## ðŸš€ Features"

/-- The heading literal of line 129, leading `\n` included. -/
def bugFixesHeading : String := "\n## ðŸ› Bug Fixes"

/-- The heading literal of line 137, leading `\n` included. -/
def choresHeading : String := "\n## ðŸ”§ Chores"

/-- One bullet of the notes: a markdown link around the story name keyed
by the lower-cased id when `include_story_links` is set, else the plain
name. -/
def storyLine (include_story_links : Bool) (story : StoryEntry) : String :=
  if include_story_links then
    "- [" ++ story.name ++ "](https://app.shortcut.com/story/" ++ lowerString story.id ++ ")"
  else
    "- " ++ story.name

/-- `generate_release_notes` (lines 111–144): build the `notes` list by
appending, for each non-empty bucket in the order feature, bug, chore, its
heading literal and one line per story; finally `"\n".join(notes)`. -/
def generate_release_notes (categories : CategoryMap) (include_story_links : Bool) : String :=
  let notes : List String := []
  let notes :=
    if getCat categories "feature" ≠ [] then
      (getCat categories "feature").foldl
        (fun ns story => ns ++ [storyLine include_story_links story])
        (notes ++ [featuresHeading])
    else notes
  let notes :=
    if getCat categories "bug" ≠ [] then
      (getCat categories "bug").foldl
        (fun ns story => ns ++ [storyLine include_story_links story])
        (notes ++ [bugFixesHeading])
    else notes
  let notes :=
    if getCat categories "chore" ≠ [] then
      (getCat categories "chore").foldl
        (fun ns story => ns ++ [storyLine include_story_links story])
        (notes ++ [choresHeading])
    else notes
  String.intercalate "\n" notes

/-! ## Current-tag lookup — `ReleaseHandler.get_current_tag` -/

/-- `[0-9]+` then the rest, or `none` if no digit is present. -/
def takeDigitsRest (cs : List Char) : Option (List Char) :=
  let ds := cs.takeWhile Char.isDigit
  if ds.isEmpty then none else some (cs.drop ds.length)

/-- The pattern `v[0-9]+\.[0-9]+\.[0-9]+` against the whole text. -/
def vtagCore (cs : List Char) : Bool :=
  match cs with
  | 'v' :: r1 =>
    (match takeDigitsRest r1 with
     | some ('.' :: r2) =>
       match takeDigitsRest r2 with
       | some ('.' :: r3) =>
         match takeDigitsRest r3 with
         | some [] => true
         | _ => false
       | _ => false
     | _ => false)
  | _ => false

/-- `re.match(r'^v[0-9]+\.[0-9]+\.[0-9]+$', tag)`: the anchor `$` also
matches just before a single trailing newline, as in Python. -/
def matchesVersionTag (tag : String) : Bool :=
  vtagCore tag.data ||
    (match tag.data.getLast? with
     | some c => c == '\n' && vtagCore tag.data.dropLast
     | none => false)

/-- `get_current_tag` (lines 146–168): run `git tag --points-at HEAD`,
split the output into lines, keep the lines matching the version-tag
pattern, and return the first one (`None` when there is none or the
subprocess fails). -/
def get_current_tag (gitTagResult : Option String) : Option String :=
  match gitTagResult with
  | some stdout =>
    let tags := pySplitLines (pyStrip stdout)
    let version_tags := tags.filter matchesVersionTag
    version_tags.head?
  | none => none

/-! ## Driver — `main` -/

/-- The version-resolution step of `main` (lines 202–211): reuse the tag
at HEAD when one exists (re-parsing it, where a parse failure is an
uncaught `ValueError`, hence `none`), otherwise apply the computed bump to
the previous version. -/
def resolveVersion (prev_version : Version) (categories : CategoryMap)
    (gitTagResult : Option String) : Option Version :=
  match get_current_tag gitTagResult with
  | some current_tag => parseVersion (lstripV current_tag)
  | none => applyBump prev_version (determine_version_bump categories)

/-- The `main` pipeline (lines 170–227) as a pure function of its external
inputs; the result is the `(tag, release_notes)` pair printed as JSON on
success, and `none` when the run exits with status 1 (unparseable previous
version, or an uncaught error while re-parsing the HEAD tag). -/
def runMain (prevVersionArg : String) (includeStoryLinks : Bool)
    (gitLogResult : Option String) (fetch : String → Option StoryJson)
    (gitTagResult : Option String) : Option (String × String) :=
  match parseVersion (lstripV prevVersionArg) with
  | none => none
  | some prev_version =>
    let commit_messages := get_commits_between_releases gitLogResult
    let story_ids := extract_story_ids commit_messages
    let categories := categorize_stories fetch story_ids
    match resolveVersion prev_version categories gitTagResult with
    | none => none
    | some new_version =>
      some ("v" ++ renderVersion new_version,
            generate_release_notes categories includeStoryLinks)

/-! ## Spec-side renderer (for the refinement claim about section layout) -/

/-- Spec-side description of one section: nothing for an empty bucket,
else the section's heading literal followed by one bullet per story. -/
def sectionSpec (heading : String) (bucket : List StoryEntry)
    (includeLinks : Bool) : List String :=
  if bucket.isEmpty then [] else heading :: bucket.map (storyLine includeLinks)

/-- Spec-side renderer: the three sections in the fixed order Features,
Bug Fixes, Chores (with the script's heading literals), empty buckets
omitted entirely, all lines joined by newlines. -/
def renderSpec (categories : CategoryMap) (includeLinks : Bool) : String :=
  String.intercalate "\n"
    (sectionSpec featuresHeading (getCat categories "feature") includeLinks ++
     sectionSpec bugFixesHeading (getCat categories "bug") includeLinks ++
     sectionSpec choresHeading (getCat categories "chore") includeLinks)

/-! ## Helper lemmas -/

@[simp]
lemma getCat_mk_feature (f b c : List StoryEntry) :
    getCat (mkCategories f b c) "feature" = f := by
  simp [getCat, mkCategories, List.lookup]

@[simp]
lemma getCat_mk_bug (f b c : List StoryEntry) :
    getCat (mkCategories f b c) "bug" = b := by
  simp [getCat, mkCategories, List.lookup]

@[simp]
lemma getCat_mk_chore (f b c : List StoryEntry) :
    getCat (mkCategories f b c) "chore" = c := by
  simp [getCat, mkCategories, List.lookup]

lemma foldl_append_map {α β : Type} (f : α → β) (l : List α) :
    ∀ acc : List β, l.foldl (fun ns s => ns ++ [f s]) acc = acc ++ l.map f := by
  induction l with
  | nil => intro acc; simp
  | cons h t ih => intro acc; simp [ih]

lemma foldl_append_flat {α β : Type} (f : α → List β) (l : List α) :
    ∀ acc : List β, l.foldl (fun ns s => ns ++ f s) acc = acc ++ (l.map f).flatten := by
  induction l with
  | nil => intro acc; simp
  | cons h t ih => intro acc; simp [ih]

/-! ## Claims -/

/-- Claim C1: for every `CategoryMap`, `determine_version_bump` yields
`'minor'` exactly when the feature bucket is non-empty and `'patch'`
otherwise (bug-only and all-empty alike); applying the chosen bump to the
previous version `1.2.3` yields `1.3.0` when features are present and
`1.2.4` otherwise, per standard semantic-version increment rules. -/
theorem version_bump_minor_iff_feature (f b c : List StoryEntry) :
    (determine_version_bump (mkCategories f b c) = "minor" ↔ f ≠ []) ∧
    (determine_version_bump (mkCategories f b c) = "patch" ↔ f = []) ∧
    (f ≠ [] →
      applyBump ⟨1, 2, 3⟩ (determine_version_bump (mkCategories f b c)) = some ⟨1, 3, 0⟩) ∧
    (f = [] →
      applyBump ⟨1, 2, 3⟩ (determine_version_bump (mkCategories f b c)) = some ⟨1, 2, 4⟩) := by
  by_cases hf : f = [] <;>
    simp [determine_version_bump, applyBump, next_minor, next_patch, hf]

/-- Witness for C1 at concrete buckets: a feature-only map bumps `1.2.3`
to `1.3.0`; a bug-only map and the empty map bump it to `1.2.4`. -/
theorem version_bump_minor_iff_feature_witness :
    determine_version_bump (mkCategories [⟨"SC-1", "A", ""⟩] [] []) = "minor" ∧
    applyBump ⟨1, 2, 3⟩
      (determine_version_bump (mkCategories [⟨"SC-1", "A", ""⟩] [] [])) = some ⟨1, 3, 0⟩ ∧
    applyBump ⟨1, 2, 3⟩
      (determine_version_bump (mkCategories [] [⟨"SC-2", "B", ""⟩] [])) = some ⟨1, 2, 4⟩ ∧
    applyBump ⟨1, 2, 3⟩
      (determine_version_bump (mkCategories [] [] [])) = some ⟨1, 2, 4⟩ :=
  ⟨(version_bump_minor_iff_feature _ _ _).1.mpr (by simp),
   (version_bump_minor_iff_feature _ _ _).2.2.1 (by simp),
   (version_bump_minor_iff_feature _ _ _).2.2.2 rfl,
   (version_bump_minor_iff_feature _ _ _).2.2.2 rfl⟩

/-- Claim C2: when the current commit bears a version tag (so
`get_current_tag` returns it) and that tag re-parses, the resolver
returns exactly that version, for every previous version and every
category map alike — re-running on an already-tagged commit reuses the
tag instead of bumping again. -/
theorem resolver_reuses_existing_tag (gitTagResult : Option String) (t : String) (v : Version)
    (h1 : get_current_tag gitTagResult = some t)
    (h2 : parseVersion (lstripV t) = some v) :
    ∀ (prev prev' : Version) (cats cats' : CategoryMap),
      resolveVersion prev cats gitTagResult = some v ∧
      resolveVersion prev cats gitTagResult = resolveVersion prev' cats' gitTagResult := by
  intro prev prev' cats cats'
  simp [resolveVersion, h1, h2]

/-- Witness for C2: with `v1.2.3` tagged at HEAD, the resolver returns
`1.2.3` whatever the previous version and categories are. -/
theorem resolver_reuses_existing_tag_witness :
    get_current_tag (some "v1.2.3") = some "v1.2.3" ∧
    parseVersion (lstripV "v1.2.3") = some ⟨1, 2, 3⟩ ∧
    (resolveVersion ⟨9, 9, 9⟩ (mkCategories [⟨"SC-1", "X", ""⟩] [] [])
        (some "v1.2.3") = some ⟨1, 2, 3⟩ ∧
      resolveVersion ⟨9, 9, 9⟩ (mkCategories [⟨"SC-1", "X", ""⟩] [] [])
          (some "v1.2.3") =
        resolveVersion ⟨0, 0, 1⟩ (mkCategories [] [] []) (some "v1.2.3")) :=
  ⟨by decide, by decide,
   resolver_reuses_existing_tag (some "v1.2.3") "v1.2.3" ⟨1, 2, 3⟩
     (by decide) (by decide) _ _ _ _⟩

/-- Claim C3 (as stated) is false: for the category map with only the bug
bucket `[{name: "Crash on load"}]` filled, the rendered output is not the
Bug Fixes heading with nothing before it — the heading literal of line
129 carries a leading `\n` even when it is the first emitted heading. -/
theorem notes_leading_blank_line_cex :
    generate_release_notes
        (mkCategories [] [⟨"SC-1", "Crash on load", ""⟩] []) false ≠
      "## ðŸ› Bug Fixes\n- Crash on load" := by
  decide

/-- Claim C3 amended: the Bug Fixes and Chores heading literals carry a
leading newline whenever their bucket is emitted, regardless of position
(only the Features heading never does). So a blank line does separate the
2nd and 3rd emitted sections from the preceding one, but when Bug Fixes
is the first emitted section the output starts with a blank line before
the heading: the example map renders as `"\n## ðŸ› Bug Fixes\n- Crash on
load"`, not with the heading first. -/
theorem notes_leading_blank_line_amended :
    generate_release_notes
        (mkCategories [] [⟨"SC-1", "Crash on load", ""⟩] []) false =
      "\n## ðŸ› Bug Fixes\n- Crash on load" ∧
    generate_release_notes
        (mkCategories [⟨"SC-2", "Add search", ""⟩] [⟨"SC-1", "Crash on load", ""⟩] []) false =
      "## ðŸš€ Features\n- Add search\n\n## ðŸ› Bug Fixes\n- Crash on load" ∧
    generate_release_notes
        (mkCategories [⟨"SC-2", "Add search", ""⟩] [] [⟨"SC-3", "Tidy", ""⟩]) false =
      "## ðŸš€ Features\n- Add search\n\n## ðŸ”§ Chores\n- Tidy" := by
  decide

/-- Claim C4 (as stated) is false: a successful `git log` invocation that
finds no commits returns `[""]` (stripping and splitting the empty
output), which is distinguishable from the `[]` returned on a non-zero
exit. -/
theorem commits_failure_indistinguishable_cex :
    get_commits_between_releases (some "") ≠ get_commits_between_releases none := by
  decide

/-- Claim C4 amended: on a non-zero exit `get_commits_between_releases`
returns `[]` rather than raising; a successful invocation that finds no
commits returns `[""]` — one empty subject line, a splitting artifact —
so the two raw results differ, though neither yields any story id, so
downstream extraction cannot tell them apart. -/
theorem commits_failure_empty_amended :
    get_commits_between_releases none = [] ∧
    get_commits_between_releases (some "") = [""] ∧
    extract_story_ids (get_commits_between_releases (some "")) =
      extract_story_ids (get_commits_between_releases none) := by
  decide

/-- Claim C6: `extract_story_ids` only looks at the lower-cased subject,
so any two subjects equal up to (ASCII) case yield the same extracted
ids; in particular `"fix SC-12"` and `"fix sc-12"` do. -/
theorem extract_case_insensitive (s t : String)
    (h : s.data.map Char.toLower = t.data.map Char.toLower) :
    extract_story_ids [s] = extract_story_ids [t] := by
  simp [extract_story_ids, h]

/-- Witness for C6 at the spec's example pair. -/
theorem extract_case_insensitive_witness :
    ("fix SC-12" : String).data.map Char.toLower =
        ("fix sc-12" : String).data.map Char.toLower ∧
    extract_story_ids ["fix SC-12"] = extract_story_ids ["fix sc-12"] :=
  ⟨by decide, extract_case_insensitive "fix SC-12" "fix sc-12" (by decide)⟩

/-- Claim C9: the renderer agrees, on every category map, with the
spec-side renderer that emits the sections in the fixed order Features,
Bug Fixes, Chores with their fixed heading literals and omits a section
(heading and bullets) exactly when its bucket is empty; and with links
enabled the story `{id: "SC-42", name: "Add login"}` renders as the
markdown link bullet keyed by the lower-cased id. -/
theorem render_fixed_order_omits_empty (f b c : List StoryEntry) (links : Bool) :
    generate_release_notes (mkCategories f b c) links =
      renderSpec (mkCategories f b c) links ∧
    storyLine true ⟨"SC-42", "Add login", ""⟩ =
      "- [Add login](https://app.shortcut.com/story/sc-42)" := by
  constructor
  · by_cases hf : f = [] <;> by_cases hb : b = [] <;> by_cases hc : c = [] <;>
      simp [generate_release_notes, renderSpec, sectionSpec, hf, hb, hc,
        foldl_append_map]
  · decide

/-- Claim C10 (implicit): when all three buckets are empty,
`generate_release_notes` returns exactly the empty string for either
value of `include_story_links`; consequently any run whose categorization
comes out empty still succeeds — when no tag sits at HEAD it prints the
patch-bumped tag — and the `release_notes` field of the printed JSON
object is `""`. -/
theorem empty_categories_empty_notes (prevArg : String) (prev : Version) (links : Bool)
    (logRes tagRes : Option String) (fetch : String → Option StoryJson)
    (hprev : parseVersion (lstripV prevArg) = some prev)
    (hcats : categorize_stories fetch
        (extract_story_ids (get_commits_between_releases logRes)) =
      mkCategories [] [] []) :
    generate_release_notes (mkCategories [] [] []) links = "" ∧
    (∀ out, runMain prevArg links logRes fetch tagRes = some out → out.2 = "") ∧
    (get_current_tag tagRes = none →
      runMain prevArg links logRes fetch tagRes =
        some ("v" ++ renderVersion (next_patch prev), "")) := by
  have hgen : generate_release_notes (mkCategories [] [] []) links = "" := by
    cases links <;> rfl
  refine ⟨hgen, ?_, ?_⟩
  · intro out hout
    simp only [runMain, hprev] at hout
    rw [hcats] at hout
    rcases hres : resolveVersion prev (mkCategories [] [] []) tagRes with _ | nv <;>
      rw [hres] at hout
    · exact absurd hout (by simp)
    · rw [hgen] at hout
      simp only [Option.some.injEq] at hout
      rw [← hout]
  · intro htag
    simp only [runMain, hprev]
    rw [hcats, hgen]
    simp [resolveVersion, htag, determine_version_bump, applyBump]

/-- Witness for C10: a run with empty git-log output, a failing story
API, no tag at HEAD and previous version `v1.2.3` prints tag `v1.2.4`
with empty release notes. -/
theorem empty_categories_empty_notes_witness :
    parseVersion (lstripV "v1.2.3") = some ⟨1, 2, 3⟩ ∧
    categorize_stories (fun _ => none)
        (extract_story_ids (get_commits_between_releases (some ""))) =
      mkCategories [] [] [] ∧
    get_current_tag (some "") = none ∧
    (generate_release_notes (mkCategories [] [] []) false = "" ∧
      (∀ out, runMain "v1.2.3" false (some "") (fun _ => none) (some "") = some out →
        out.2 = "") ∧
      (get_current_tag (some "") = none →
        runMain "v1.2.3" false (some "") (fun _ => none) (some "") =
          some ("v" ++ renderVersion (next_patch ⟨1, 2, 3⟩), ""))) :=
  ⟨by decide, by rfl, by decide,
   empty_categories_empty_notes "v1.2.3" ⟨1, 2, 3⟩ false (some "") (some "")
     (fun _ => none) (by decide) (by rfl)⟩

lemma isSCId_mk (ds : List Char) :
    isSCId (String.mk ('S' :: 'C' :: '-' :: ds)) = (!ds.isEmpty && ds.all Char.isDigit) :=
  rfl

lemma matchAt_isSCId {cs : List Char} {id : String} {r : List Char}
    (h : matchAt cs = some (id, r)) : isSCId id = true := by
  unfold matchAt at h
  split at h
  · rename_i rest
    split at h
    · exact absurd h (by simp)
    · rename_i hd
      simp only [Option.some.injEq, Prod.mk.injEq] at h
      obtain ⟨h1, _⟩ := h
      have hmk : ("SC-" ++ String.mk (rest.takeWhile Char.isDigit)) =
          String.mk ('S' :: 'C' :: '-' :: rest.takeWhile Char.isDigit) := by
        apply String.ext
        rw [String.data_append]
        rfl
      rw [← h1, hmk, isSCId_mk]
      refine (Bool.and_eq_true _ _).mpr ⟨by simpa using hd, ?_⟩
      rw [List.all_eq_true]
      intro x hx
      exact List.mem_takeWhile_imp hx
  · exact absurd h (by simp)

lemma scanAux_isSCId : ∀ (fuel : Nat) (cs : List Char) (id : String),
    id ∈ scanAux fuel cs → isSCId id = true := by
  intro fuel
  induction fuel with
  | zero => intro cs id h; simp [scanAux] at h
  | succ n ih =>
    intro cs id h
    match cs with
    | [] => simp [scanAux] at h
    | c :: rest =>
      rw [scanAux] at h
      split at h
      · rename_i p heq
        rcases List.mem_cons.mp h with h1 | h1
        · exact h1 ▸ matchAt_isSCId heq
        · exact ih _ _ h1
      · exact ih _ _ h

/-- Claim C5: for every sequence of commit subjects, `extract_story_ids`
returns a duplicate-free list in which every id matches `^SC-\d+$`
(uppercase-normalized), and every non-overlapping match of `sc-(\d+)`
found in any subject — several per subject included — contributes its id
to the result. -/
theorem extract_ids_nodup_wellformed (commit_messages : List String) :
    (extract_story_ids commit_messages).Nodup ∧
    (∀ id ∈ extract_story_ids commit_messages, isSCId id = true) ∧
    (∀ m ∈ commit_messages, ∀ id ∈ scanIds (m.data.map Char.toLower),
      id ∈ extract_story_ids commit_messages) := by
  refine ⟨List.nodup_dedup _, ?_, ?_⟩
  · intro id hid
    rw [extract_story_ids, List.mem_dedup,
      foldl_append_flat (fun m : String => scanIds (m.data.map Char.toLower))] at hid
    simp only [List.nil_append, List.mem_flatten, List.mem_map] at hid
    obtain ⟨l, ⟨m, _, rfl⟩, hidl⟩ := hid
    exact scanAux_isSCId _ _ _ hidl
  · intro m hm id hid
    rw [extract_story_ids, List.mem_dedup,
      foldl_append_flat (fun m : String => scanIds (m.data.map Char.toLower))]
    simp only [List.nil_append, List.mem_flatten, List.mem_map]
    exact ⟨scanIds (m.data.map Char.toLower), ⟨m, hm, rfl⟩, hid⟩

/-- Witness for C5: two subjects with repeated and multiple matches give
a duplicate-free result of well-formed ids containing each match. -/
theorem extract_ids_nodup_wellformed_witness :
    (extract_story_ids ["Fix sc-12 and SC-12", "sc-7 sc-12"]).Nodup ∧
    isSCId "SC-12" = true ∧
    "SC-7" ∈ extract_story_ids ["Fix sc-12 and SC-12", "sc-7 sc-12"] :=
  ⟨(extract_ids_nodup_wellformed _).1,
   (extract_ids_nodup_wellformed ["Fix sc-12 and SC-12", "sc-7 sc-12"]).2.1
     "SC-12" (by decide),
   (extract_ids_nodup_wellformed ["Fix sc-12 and SC-12", "sc-7 sc-12"]).2.2
     "sc-7 sc-12" (by decide) "SC-7" (by decide)⟩

lemma appendTo_keys (m : CategoryMap) (k : String) (e : StoryEntry) :
    (appendTo m k e).map Prod.fst = m.map Prod.fst := by
  induction m with
  | nil => rfl
  | cons p rest ih =>
    simp only [appendTo, List.map_cons] at ih ⊢
    congr 1
    split <;> rfl

lemma mem_allEntries_cons (p : String × List StoryEntry) (rest : CategoryMap)
    (x : StoryEntry) :
    x ∈ allEntries (p :: rest) ↔ x ∈ p.2 ∨ x ∈ allEntries rest := by
  simp [allEntries]

lemma mem_allEntries_appendTo {m : CategoryMap} {k : String} {e x : StoryEntry}
    (h : x ∈ allEntries (appendTo m k e)) : x ∈ allEntries m ∨ x = e := by
  induction m with
  | nil => simp [appendTo, allEntries] at h
  | cons p rest ih =>
    simp only [appendTo, List.map_cons] at h
    rw [mem_allEntries_cons] at h
    rcases h with h | h
    · by_cases hpk : p.1 == k
      · rw [if_pos hpk] at h
        rcases List.mem_append.mp h with h1 | h1
        · exact Or.inl ((mem_allEntries_cons p rest x).mpr (Or.inl h1))
        · exact Or.inr (List.mem_singleton.mp h1)
      · rw [if_neg hpk] at h
        exact Or.inl ((mem_allEntries_cons p rest x).mpr (Or.inl h))
    · rcases ih h with h1 | h1
      · exact Or.inl ((mem_allEntries_cons p rest x).mpr (Or.inr h1))
      · exact Or.inr h1

lemma hasKey_mem_keys {m : CategoryMap} {k : String} (h : hasKey m k = true) :
    k ∈ m.map Prod.fst := by
  simp only [hasKey, List.any_eq_true, beq_iff_eq] at h
  obtain ⟨p, hp, hpk⟩ := h
  exact List.mem_map.mpr ⟨p, hp, hpk⟩

lemma categorize_fold_invariant (fetch : String → Option StoryJson) :
    ∀ (ids : List String) (acc : CategoryMap),
      acc.map Prod.fst = ["feature", "bug", "chore"] →
      ((ids.foldl (categorizeStep fetch) acc).map Prod.fst = ["feature", "bug", "chore"] ∧
        ∀ x ∈ allEntries (ids.foldl (categorizeStep fetch) acc),
          x ∈ allEntries acc ∨
            lowerString (get_story_details fetch x.id).story_type ∈
              (["feature", "bug", "chore"] : List String)) := by
  intro ids
  induction ids with
  | nil => exact fun acc hacc => ⟨hacc, fun x hx => Or.inl hx⟩
  | cons i rest ih =>
    intro acc hacc
    rw [List.foldl_cons]
    have hstep_keys : (categorizeStep fetch acc i).map Prod.fst =
        ["feature", "bug", "chore"] := by
      simp only [categorizeStep]
      split
      · rw [appendTo_keys]; exact hacc
      · exact hacc
    obtain ⟨hkeys, hmem⟩ := ih (categorizeStep fetch acc i) hstep_keys
    refine ⟨hkeys, fun x hx => ?_⟩
    rcases hmem x hx with hx' | hgood
    · revert hx'
      simp only [categorizeStep]
      split
      · intro hx'
        rcases mem_allEntries_appendTo hx' with h1 | h2
        · exact Or.inl h1
        · rename_i hk
          right
          rw [h2]
          have hmemk := hasKey_mem_keys hk
          rw [hacc] at hmemk
          exact hmemk
      · exact fun hx' => Or.inl hx'
    · exact Or.inr hgood

/-- Claim C7: a failed story fetch (network error or non-2xx status)
makes `get_story_details` return the empty record instead of raising, and
that story id then appears in no bucket of the category map, so the
pipeline continues with partial data. -/
theorem failed_fetch_empty_record_excluded (fetch : String → Option StoryJson)
    (story_ids : List String) (i : String)
    (h : fetch (numericId i) = none) :
    get_story_details fetch i = emptyStoryJson ∧
    ∀ x ∈ allEntries (categorize_stories fetch story_ids), x.id ≠ i := by
  have hg : get_story_details fetch i = emptyStoryJson := by
    simp [get_story_details, h]
  refine ⟨hg, fun x hx hxi => ?_⟩
  have hinv := (categorize_fold_invariant fetch story_ids initCategories rfl).2 x hx
  rcases hinv with h1 | h2
  · simp [allEntries, initCategories] at h1
  · rw [hxi, hg] at h2
    exact absurd h2 (by decide)

/-- Witness for C7: with every fetch failing, the story `SC-1` is fetched
as the empty record and lands in no bucket. -/
theorem failed_fetch_empty_record_excluded_witness :
    (fun _ => none : String → Option StoryJson) (numericId "SC-1") = none ∧
    (get_story_details (fun _ => none) "SC-1" = emptyStoryJson ∧
      ∀ x ∈ allEntries (categorize_stories (fun _ => none) ["SC-1", "SC-2"]),
        x.id ≠ "SC-1") :=
  ⟨rfl, failed_fetch_empty_record_excluded (fun _ => none) ["SC-1", "SC-2"] "SC-1" rfl⟩

/-- Claim C8: the category map returned by `categorize_stories` carries
exactly the three fixed keys `feature`, `bug`, `chore` (in that order),
and a story whose case-folded `story_type` is not one of those three
values is appended to no bucket — silently dropped, with no `other`
bucket. -/
theorem categorize_fixed_keys_drops_unknown (fetch : String → Option StoryJson)
    (story_ids : List String) :
    (categorize_stories fetch story_ids).map Prod.fst = ["feature", "bug", "chore"] ∧
    ∀ i st, fetch (numericId i) = some st →
      lowerString st.story_type ∉ (["feature", "bug", "chore"] : List String) →
      ∀ x ∈ allEntries (categorize_stories fetch story_ids), x.id ≠ i := by
  have hinv := categorize_fold_invariant fetch story_ids initCategories rfl
  refine ⟨hinv.1, fun i st hf hnot x hx hxi => ?_⟩
  rcases hinv.2 x hx with h1 | h2
  · simp [allEntries, initCategories] at h1
  · rw [hxi] at h2
    have hst : get_story_details fetch i = st := by
      simp [get_story_details, hf]
    rw [hst] at h2
    exact hnot h2

/-- Witness for C8: a story whose `story_type` is `epic` leaves all three
buckets untouched while the keys stay fixed. -/
theorem categorize_fixed_keys_drops_unknown_witness :
    (fun n => if n == "7" then some ⟨"epic", "X", "Y"⟩ else none :
        String → Option StoryJson) (numericId "SC-7") = some ⟨"epic", "X", "Y"⟩ ∧
    lowerString ("epic" : String) ∉ (["feature", "bug", "chore"] : List String) ∧
    ((categorize_stories
          (fun n => if n == "7" then some ⟨"epic", "X", "Y"⟩ else none)
          ["SC-7"]).map Prod.fst = ["feature", "bug", "chore"] ∧
      ∀ x ∈ allEntries (categorize_stories
          (fun n => if n == "7" then some ⟨"epic", "X", "Y"⟩ else none) ["SC-7"]),
        x.id ≠ "SC-7") :=
  ⟨by decide, by decide,
   ⟨(categorize_fixed_keys_drops_unknown _ _).1,
    (categorize_fixed_keys_drops_unknown
        (fun n => if n == "7" then some ⟨"epic", "X", "Y"⟩ else none) ["SC-7"]).2
      "SC-7" ⟨"epic", "X", "Y"⟩ (by decide) (by decide)⟩⟩
